import Mathlib

/-!
Verification of the image-generation pipeline of the `nano-banana-mcp`
server (`src/server/gemini-client.ts` and `src/tools.ts`).

The TypeScript source is shallowly embedded: byte buffers are `List Nat`
(one entry per byte, values `< 256` are not enforced because the source
never relies on the range), strings are Lean `String`s, and every
effectful collaborator (filesystem, the remote Gemini call, the `sharp`
decoder, Node's lenient base64 decoder) is a field of an explicit
environment record.  Effect results consumed at batch unit `i` are drawn
from oracle functions indexed by `i`, which models the fact that the
world may change between sequential units.  Node's `path` module (posix
flavour) is modelled by executable string functions covering the
behaviour on the argument shapes the source produces.
-/

deriving instance DecidableEq for Except

namespace NanoBanana

/-- JS `String.prototype.includes`: `includesJS hay needle` is true iff
`needle` occurs as a contiguous substring of `hay`. -/
def includesJS (hay needle : String) : Bool :=
  go hay.data
where
  go : List Char → Bool
    | [] => needle.data.isEmpty
    | c :: t => needle.data.isPrefixOf (c :: t) || go t

/-- JS truthiness-based defaulting `a || d` for an optional number. -/
def jsOrInt (a : Option Int) (d : Int) : Int :=
  match a with
  | none => d
  | some v => if v = 0 then d else v

/-- JS `String.prototype.startsWith`. -/
def startsWithJS (s pre : String) : Bool :=
  pre.data.isPrefixOf s.data

/-- JS `String.prototype.toLowerCase` on the ASCII range (file
extensions only contain ASCII). -/
def toLowerJS (s : String) : String :=
  String.mk (s.data.map (fun c =>
    if 'A' ≤ c ∧ c ≤ 'Z' then Char.ofNat (c.toNat + 32) else c))

/-- JS truthiness-based defaulting `a || d` for an optional string
(`undefined` and `""` are both falsy). -/
def jsOrStr (a : Option String) (d : String) : String :=
  match a with
  | none => d
  | some s => if s = "" then d else s

/-! ## Model of Node's `path` module (posix) -/

/-- `path.basename(p)`: the component after the last `/`. -/
def basenameRaw (p : String) : String :=
  String.mk ((p.data.reverse.takeWhile (fun c => c ≠ '/')).reverse)

/-- `path.dirname(p)`: everything before the last `/`; `"."` when there
is no slash, `"/"` when the last slash is the leading one. -/
def dirname (p : String) : String :=
  match p.data.reverse.dropWhile (fun c => c ≠ '/') with
  | [] => "."
  | _ :: rest => if rest.isEmpty then "/" else String.mk rest.reverse

/-- `path.extname(p)`: from the last `.` of the basename to the end,
empty for dotless names, names whose only `.` leads (`.bashrc`), and
the special names `.` and `..`. -/
def extname (p : String) : String :=
  let b := (basenameRaw p).data
  if b = ['.'] ∨ b = ['.', '.'] then ""
  else
    let afterDot := b.reverse.takeWhile (fun c => c ≠ '.')
    if afterDot.length = b.length then ""
    else
      let dotIdx := b.length - afterDot.length - 1
      if dotIdx = 0 then "" else String.mk (b.drop dotIdx)

/-- `path.basename(p, ext)`: the basename with the suffix `ext`
removed when it is a proper suffix. -/
def basename (p ext : String) : String :=
  let b := (basenameRaw p).data
  if ext ≠ "" ∧ ext.data ≠ b ∧ List.isSuffixOf ext.data b then
    String.mk (b.take (b.length - ext.data.length))
  else String.mk b

/-- `path.join(dir, b)` restricted to the shapes `dirname` produces:
`""` and `"."` vanish, a root slash is kept bare, otherwise the two
pieces are joined with a single `/`. -/
def pathJoin (dir b : String) : String :=
  if dir = "" then b
  else if dir = "." then b
  else if dir = "/" then "/" ++ b
  else dir ++ "/" ++ b

/-! ## validateImageBuffer (gemini-client.ts lines 305-350) -/

/-- `GeminiClient.validateImageBuffer`: magic-byte sniffing.  Buffers
shorter than 4 bytes are rejected; otherwise the leading bytes are
compared against the PNG / JPEG / GIF8 / RIFF+WEBP / BMP signatures.
Each `if` in the source either returns `true` or falls through, so the
chain is a disjunction. -/
def validateImageBuffer (buffer : List Nat) : Bool :=
  match buffer with
  | b0 :: b1 :: b2 :: b3 :: _ =>
    let png := b0 = 0x89 ∧ b1 = 0x50 ∧ b2 = 0x4E ∧ b3 = 0x47
    let jpeg := b0 = 0xFF ∧ b1 = 0xD8 ∧ b2 = 0xFF
    let gif := b0 = 0x47 ∧ b1 = 0x49 ∧ b2 = 0x46 ∧ b3 = 0x38
    let riff := b0 = 0x52 ∧ b1 = 0x49 ∧ b2 = 0x46 ∧ b3 = 0x46
    let webp := riff ∧ 12 ≤ buffer.length ∧
      buffer.get? 8 = some 0x57 ∧ buffer.get? 9 = some 0x45 ∧
      buffer.get? 10 = some 0x42 ∧ buffer.get? 11 = some 0x50
    let bmp := b0 = 0x42 ∧ b1 = 0x4D
    decide png || decide jpeg || decide gif || decide webp || decide bmp
  | _ => false

/-! ## handleError (gemini-client.ts lines 352-394) -/

structure ErrInfo where
  code : String
  message : String
deriving DecidableEq

structure GeneratedImage where
  path : String
  width : Nat
  height : Nat
deriving DecidableEq

/-- `GenerateImageResult`: `images` is `none` on the failure shapes the
source returns (the field is absent there) and `some` on success. -/
structure GenerateImageResult where
  success : Bool
  images : Option (List GeneratedImage)
  error : Option ErrInfo
deriving DecidableEq

/-- `GeminiClient.handleError`: maps a thrown error's message to the
stable `(code, message)` taxonomy via an ordered substring-test chain.
All throw sites of the embedded pipeline carry a message, so the
`'Unknown error occurred'` default for message-less errors is not
modelled. -/
def handleError (msg : String) : GenerateImageResult :=
  let e : ErrInfo :=
    if includesJS msg "API key" then ⟨"INVALID_API_KEY", "Invalid or missing API key"⟩
    else if includesJS msg "exists" then ⟨"FILE_EXISTS", msg⟩
    else if includesJS msg "quota" || includesJS msg "limit" then
      ⟨"QUOTA_EXCEEDED", "API quota exceeded or rate limit reached"⟩
    else if includesJS msg "Permission denied" then ⟨"FILE_ACCESS_ERROR", msg⟩
    else if includesJS msg "file not found" then ⟨"FILE_NOT_FOUND", msg⟩
    else if includesJS msg "not a valid image" then ⟨"INVALID_IMAGE_FORMAT", msg⟩
    else if includesJS msg "Invalid base64" then ⟨"INVALID_BASE64", msg⟩
    else if includesJS msg "Empty base64" then ⟨"EMPTY_IMAGE_DATA", msg⟩
    else if includesJS msg "permission" || includesJS msg "access" then
      ⟨"FILE_WRITE_ERROR", "Unable to write file to specified path"⟩
    else ⟨"API_ERROR", msg⟩
  { success := false, images := none, error := some e }

/-! ## Base64 encoding (`Buffer.prototype.toString('base64')`) -/

/-- One sextet to its base64 alphabet character. -/
def base64Char (n : Nat) : Char :=
  if n < 26 then Char.ofNat (65 + n)
  else if n < 52 then Char.ofNat (97 + (n - 26))
  else if n < 62 then Char.ofNat (48 + (n - 52))
  else if n = 62 then '+' else '/'

/-- RFC 4648 base64 encoding of a byte list, with `=` padding, as
produced by `buffer.toString('base64')`. -/
def b64encodeChars : List Nat → List Char
  | [] => []
  | [a] => [base64Char (a / 4 % 64), base64Char (a % 4 * 16), '=', '=']
  | [a, b] => [base64Char (a / 4 % 64), base64Char (a % 4 * 16 + b / 16 % 16),
               base64Char (b % 16 * 4), '=']
  | a :: b :: c :: rest =>
    base64Char (a / 4 % 64) :: base64Char (a % 4 * 16 + b / 16 % 16) ::
    base64Char (b % 16 * 4 + c / 64 % 4) :: base64Char (c % 64) ::
    b64encodeChars rest

def b64encode (bs : List Nat) : String := String.mk (b64encodeChars bs)

/-! ## Data model of the request (gemini-client.ts lines 6-34) -/

structure ImageInput where
  data : String
  mimeType : Option String
deriving DecidableEq

structure GenerateImageOptions where
  prompt : Option String
  images : Option (List ImageInput)
  outputPath : String
  count : Option Int
  model : Option String
deriving DecidableEq

/-- One part of a remote candidate's content: `inline` is
`part.inlineData?.data` (absent for text parts). -/
structure Part where
  inline : Option String
deriving DecidableEq

/-- A content part assembled by `prepareContents`. -/
inductive CPart where
  | text (s : String)
  | inlineData (mimeType data : String)
deriving DecidableEq

/-- `sharp(path).metadata()` result: `width`/`height`/`format` are all
optional in sharp's type. -/
structure SharpMeta where
  width : Option Nat
  height : Option Nat
  format : Option String
deriving DecidableEq

/-- Outcome of `fs.access`: success or an error with a Node error code. -/
inductive AccessRes where
  | ok
  | enoent
  | eacces
  | other (message : String)
deriving DecidableEq

/-- The effectful collaborators of `GeminiClient.generateImages`.  The
first argument of the unit-indexed oracles is the batch unit whose
iteration performs the call, modelling that the filesystem and the
remote service may answer differently over time. -/
structure Env where
  /-- Paths existing at pre-check time (`fs.access` during planning). -/
  fs0 : List String
  /-- `fs.access` on an input image path, at unit `i`. -/
  imgAccess : Nat → String → AccessRes
  /-- `fs.readFile` on an input image path, at unit `i`. -/
  imgRead : Nat → String → Except String (List Nat)
  /-- Node's lenient `Buffer.from(s, 'base64')`: total, never throws. -/
  b64decode : String → List Nat
  /-- The remote `generateContent` call for unit `i`: either a thrown
  error or a candidate list; a candidate's `content?.parts` may be
  absent (`none`). -/
  remote : Nat → Except String (List (Option (List Part)))
  /-- `fs.mkdir(dir, {recursive:true})` for unit `i`'s output path. -/
  mkdirRes : Nat → String → Except String Unit
  /-- `fs.writeFile(path, buf, {flag:'wx'})` for unit `i` (beyond the
  modelled existence check, which is done separately). -/
  writeRes : Nat → String → Except String Unit
  /-- `sharp(path).metadata()` read back after unit `i`'s write. -/
  sharpMeta : Nat → String → Except String SharpMeta

/-! ## loadImageData (gemini-client.ts lines 187-286) -/

/-- The strict data-URL pattern `^data:([^;]+);base64,(.+)$` (JS `.`
does not match a line terminator, `$` anchors at the end): yields the
mime type and the payload on a match. -/
def dataUrlMatch (s : String) : Option (String × String) :=
  if startsWithJS s "data:" then
    let rest := s.data.drop 5
    let mime := rest.takeWhile (fun c => c ≠ ';')
    let tail := rest.drop mime.length
    if mime.isEmpty then none
    else
      match tail with
      | ';' :: t =>
        if List.isPrefixOf "base64,".data t then
          let payload := t.drop 7
          if payload.isEmpty ∨ payload.any (fun c => c = '\n' ∨ c = '\r') then none
          else some (String.mk mime, String.mk payload)
        else none
      | _ => none
  else none

/-- `GeminiClient.loadImageData`: resolve one image reference into a
`(base64 data, mime type)` pair or a thrown error message.

The two base64 branches run their checks inside a `try` whose `catch`
re-throws errors containing `'valid image'` verbatim and wraps every
other message `m` as `'Invalid base64 image data: ' ++ m`; the wrapped
forms are written out directly here (`'Empty base64 image data'` and
the re-encode check's `'Invalid base64 image data'` do not contain
`'valid image'`, the magic-byte failure message does). -/
def loadImageData (env : Env) (i : Nat) (image : ImageInput) :
    Except String (String × String) :=
  let data := image.data
  let mimeType := jsOrStr image.mimeType "image/png"
  if ¬ startsWithJS data "data:" ∧ ¬ includesJS data "base64," then
    -- File path handling
    match env.imgAccess i data with
    | .enoent => .error ("Image file not found: " ++ data)
    | .eacces => .error ("Permission denied accessing image file: " ++ data)
    | .other m => .error ("Cannot access image file: " ++ data ++ " - " ++ m)
    | .ok =>
      match env.imgRead i data with
      | .error m => .error ("Failed to read image file: " ++ data ++ " - " ++ m)
      | .ok buffer =>
        if ¬ validateImageBuffer buffer then
          .error ("File is not a valid image format: " ++ data)
        else
          let encoded := b64encode buffer
          let ext := toLowerJS (extname image.data)
          let mt :=
            if ext = ".jpg" ∨ ext = ".jpeg" then "image/jpeg"
            else if ext = ".png" then "image/png"
            else if ext = ".gif" then "image/gif"
            else if ext = ".webp" then "image/webp"
            else mimeType
          .ok (encoded, mt)
  else if startsWithJS data "data:" then
    match dataUrlMatch data with
    | some (m, payload) =>
      let buffer := env.b64decode payload
      if buffer.isEmpty then
        .error "Invalid base64 image data: Empty base64 image data"
      else if b64encode buffer = "" then
        .error "Invalid base64 image data: Invalid base64 image data"
      else if ¬ validateImageBuffer buffer then
        .error "Base64 data is not a valid image format"
      else .ok (payload, m)
    | none => .error "Invalid data URL format. Expected: data:[mimeType];base64,[data]"
  else
    -- Plain base64 string (reached only when the reference contains
    -- 'base64,' but does not start with 'data:')
    let buffer := env.b64decode data
    if buffer.isEmpty then
      .error "Invalid base64 image data: Empty base64 image data"
    else if ¬ validateImageBuffer buffer then
      .error "Base64 data is not a valid image format"
    else .ok (data, mimeType)

/-! ## prepareContents (gemini-client.ts lines 161-185) -/

/-- Resolve a list of image references in order, propagating the first
thrown error. -/
def resolveImages (env : Env) (i : Nat) : List ImageInput → Except String (List CPart)
  | [] => .ok []
  | img :: rest => do
    let r ← loadImageData env i img
    let tail ← resolveImages env i rest
    .ok (CPart.inlineData r.2 r.1 :: tail)

/-- `GeminiClient.prepareContents` at batch unit `i`: a text part for a
truthy prompt, an inline part per image, and the
`'Either prompt or images must be provided'` error when no part was
assembled. -/
def prepareContents (env : Env) (i : Nat) (opts : GenerateImageOptions) :
    Except String (List CPart) := do
  let textParts : List CPart :=
    match opts.prompt with
    | some s => if s = "" then [] else [CPart.text s]
    | none => []
  let imgParts ←
    match opts.images with
    | some imgs => if imgs.isEmpty then pure [] else resolveImages env i imgs
    | none => pure ([] : List CPart)
  let parts := textParts ++ imgParts
  if parts.isEmpty then .error "Either prompt or images must be provided"
  else .ok parts

/-! ## getOutputPath (gemini-client.ts lines 288-298) -/

/-- `GeminiClient.getOutputPath`: the single base path when the batch
total is 1, otherwise `dir/name-{index+1}ext`. -/
def getOutputPath (basePath : String) (index : Nat) (total : Int) : String :=
  if total = 1 then basePath
  else
    let dir := dirname basePath
    let ext := extname basePath
    let name := basename basePath ext
    pathJoin dir (name ++ "-" ++ Nat.repr (index + 1) ++ ext)

/-! ## generateImages (gemini-client.ts lines 47-159) -/

/-- Observable side effects of a run: remote calls made and files
written, in order. -/
inductive Ev where
  | call (i : Nat)
  | write (p : String)
deriving DecidableEq

/-- The intended output paths computed at lines 50-55: the loop runs
`max total 1` times and suffixes with `total || 1` (which equals
`total`, since `options.count || 1` is never `0`). -/
def planPaths (basePath : String) (count : Option Int) : List String :=
  let total := jsOrInt count 1
  let bound := (if total < 1 then (1 : Int) else total).toNat
  (List.range bound).map (fun i => getOutputPath basePath i (jsOrInt (some total) 1))

def fileExistsResult (p : String) : GenerateImageResult :=
  { success := false, images := none,
    error := some ⟨"FILE_EXISTS", "Output file already exists: " ++ p⟩ }

/-- Result of processing the parts of one unit's response. -/
inductive PartsOut where
  /-- The whole request returns `r` (the mid-loop `return` at the
  pre-write existence re-check). -/
  | ret (r : GenerateImageResult) (tr : List Ev)
  /-- A throw escaping to the per-unit `catch`. -/
  | err (e : String) (fs : List String) (imgs : List GeneratedImage) (tr : List Ev)
  | ok (fs : List String) (imgs : List GeneratedImage) (tr : List Ev)

/-- The inner `for (const part of ... parts)` loop of unit `i` (lines
101-132): each inline part with truthy data is written to the single
planned path `out`, re-checking existence immediately before the
write; a hit returns `FILE_EXISTS` for the entire request. -/
def processParts (env : Env) (i : Nat) (out : String) :
    List Part → List String → List GeneratedImage → List Ev → PartsOut
  | [], fs, imgs, tr => .ok fs imgs tr
  | p :: rest, fs, imgs, tr =>
    match p.inline with
    | none => processParts env i out rest fs imgs tr
    | some d =>
      if d = "" then processParts env i out rest fs imgs tr
      else
        match env.mkdirRes i out with
        | .error e => .err e fs imgs tr
        | .ok _ =>
          if fs.contains out then .ret (fileExistsResult out) tr
          else
            match env.writeRes i out with
            | .error e => .err e fs imgs tr
            | .ok _ =>
              let fs' := out :: fs
              let tr' := tr ++ [Ev.write out]
              match env.sharpMeta i out with
              | .error e => .err e fs' imgs tr'
              | .ok meta =>
                processParts env i out rest fs'
                  (imgs ++ [⟨out, meta.width.getD 0, meta.height.getD 0⟩]) tr'

/-- Continuation of the batch loop after one unit. -/
inductive Step where
  /-- The whole request returns `r` immediately. -/
  | done (r : GenerateImageResult) (tr : List Ev)
  /-- A throw at unit 0: escapes to the outer catch (`handleError`). -/
  | fatal (e : String) (tr : List Ev)
  | next (fs : List String) (imgs : List GeneratedImage) (tr : List Ev)

/-- One iteration of the batch loop (lines 87-139): assemble content,
call the remote service, process the response parts; a throw is fatal
at unit 0 and swallowed (side log only) afterwards. -/
def runUnit (env : Env) (opts : GenerateImageOptions) (total : Int) (i : Nat)
    (fs : List String) (imgs : List GeneratedImage) (tr : List Ev) : Step :=
  match prepareContents env i opts with
  | .error e => if i = 0 then .fatal e tr else .next fs imgs tr
  | .ok _ =>
    let tr := tr ++ [Ev.call i]
    match env.remote i with
    | .error e => if i = 0 then .fatal e tr else .next fs imgs tr
    | .ok cands =>
      match cands with
      | [] => .next fs imgs tr
      | c :: _ =>
        match processParts env i (getOutputPath opts.outputPath i total)
            (c.getD []) fs imgs tr with
        | .ret r tr' => .done r tr'
        | .err e fs' imgs' tr' =>
          if i = 0 then .fatal e tr' else .next fs' imgs' tr'
        | .ok fs' imgs' tr' => .next fs' imgs' tr'

/-- The batch loop, driven by fuel (`count` iterations from `i = 0`);
after the loop an empty accumulator is the `NO_IMAGES_GENERATED`
failure, a non-empty one is `success:true`. -/
def loopUnits (env : Env) (opts : GenerateImageOptions) (total : Int) :
    Nat → Nat → List String → List GeneratedImage → List Ev →
    GenerateImageResult × List Ev
  | 0, _, _, imgs, tr =>
    if imgs.isEmpty then
      ({ success := false, images := none,
         error := some ⟨"NO_IMAGES_GENERATED", "No images were generated"⟩ }, tr)
    else ({ success := true, images := some imgs, error := none }, tr)
  | fuel + 1, i, fs, imgs, tr =>
    match runUnit env opts total i fs imgs tr with
    | .done r tr' => (r, tr')
    | .fatal e tr' => (handleError e, tr')
    | .next fs' imgs' tr' => loopUnits env opts total fuel (i + 1) fs' imgs' tr'

/-- `GeminiClient.generateImages`: plan the output paths, fail fast on
any pre-existing one, validate the count, then run the batch loop.
The second component is the event trace (remote calls and writes). -/
def generateImages (env : Env) (opts : GenerateImageOptions) :
    GenerateImageResult × List Ev :=
  let plan := planPaths opts.outputPath opts.count
  match plan.find? (fun p => env.fs0.contains p) with
  | some p => (fileExistsResult p, [])
  | none =>
    let count := jsOrInt opts.count 1
    if count < 1 ∨ 10 < count then
      ({ success := false, images := none,
         error := some ⟨"INVALID_INPUT", "Count must be between 1 and 10"⟩ }, [])
    else loopUnits env opts count count.toNat 0 env.fs0 [] []

/-! ## validateImage (tools.ts lines 144-211) -/

/-- Effectful collaborators of `ImageTools.validateImage`. -/
structure VEnv where
  /-- `fs.access`: does the file exist / is it reachable. -/
  vAccess : String → Bool
  /-- `sharp(path).metadata()`: decode failure or metadata. -/
  vSharp : String → Except String SharpMeta
  /-- `fs.stat(path).size`. -/
  vStat : String → Except String Nat

structure ValidateImageResult where
  exists_ : Bool
  valid : Bool
  dimensions : Option (Nat × Nat)
  format : Option String
  fileSize : Option Nat
  error : Option String
deriving DecidableEq

/-- `ImageTools.validateImage`: existence check, full decode, the JS
falsy guard `!metadata.width || !metadata.height` (absent *or zero*
dimensions), the minimum-size check, then the valid report.  A throw
from the decode or the stat is caught and reported as
`'Invalid image file: ...'`. -/
def validateImage (env : VEnv) (path : String) : ValidateImageResult :=
  if ¬ env.vAccess path then
    ⟨false, false, none, none, none, some "File does not exist"⟩
  else
    match env.vSharp path with
    | .error m => ⟨true, false, none, none, none, some ("Invalid image file: " ++ m)⟩
    | .ok meta =>
      match env.vStat path with
      | .error m => ⟨true, false, none, none, none, some ("Invalid image file: " ++ m)⟩
      | .ok size =>
        let w := meta.width.getD 0
        let h := meta.height.getD 0
        if w = 0 ∨ h = 0 then
          ⟨true, false, none, none, none, some "Image has invalid dimensions"⟩
        else if w < 10 ∨ h < 10 then
          ⟨true, false, some (w, h), none, none,
            some "Image is too small (less than 10x10 pixels)"⟩
        else ⟨true, true, some (w, h), meta.format, some size, none⟩

/-! ## Specification-side definitions (transcribed from the spec's
words, to be compared with the source-derived definitions above) -/

/-- The spec's path-planning formula (§4.4 / §8.1): the base path
itself for a batch total of 1, otherwise
`dir(P)/name(P)-{i+1}.ext` with 1-indexed suffixes. -/
def plannedPathFormula (p : String) (total : Int) (i : Nat) : String :=
  if total = 1 then p
  else pathJoin (dirname p) (basename p (extname p) ++ "-" ++ Nat.repr (i + 1) ++ extname p)

/-- The spec's classifier order (§4.6): API-key, existing-file
collision, quota/rate-limit, permission/access, not-found,
unrecognized-format, invalid-base64, empty-data, generic write error,
then the generic API code. -/
def classifierChain : List ((String → Bool) × String) :=
  [ (fun m => includesJS m "API key", "INVALID_API_KEY"),
    (fun m => includesJS m "exists", "FILE_EXISTS"),
    (fun m => includesJS m "quota" || includesJS m "limit", "QUOTA_EXCEEDED"),
    (fun m => includesJS m "Permission denied", "FILE_ACCESS_ERROR"),
    (fun m => includesJS m "file not found", "FILE_NOT_FOUND"),
    (fun m => includesJS m "not a valid image", "INVALID_IMAGE_FORMAT"),
    (fun m => includesJS m "Invalid base64", "INVALID_BASE64"),
    (fun m => includesJS m "Empty base64", "EMPTY_IMAGE_DATA"),
    (fun m => includesJS m "permission" || includesJS m "access", "FILE_WRITE_ERROR") ]

/-- First matching pattern's code, defaulting to the generic API code. -/
def firstMatchCode (msg : String) : List ((String → Bool) × String) → String
  | [] => "API_ERROR"
  | (p, c) :: rest => if p msg then c else firstMatchCode msg rest

/-- The code of a result's error, `""` when there is none. -/
def errorCodeOf (r : GenerateImageResult) : String :=
  match r.error with
  | some e => e.code
  | none => ""

/-- A signature `sig` occurs at the start of buffer `b`. -/
def startsWithSig (b sig : List Nat) : Prop := b.take sig.length = sig

/-! ## Per-unit behaviour, read off the environment (used to state the
batch-loop claims) -/

/-- The planned output path of batch unit `i`. -/
def outPathAt (opts : GenerateImageOptions) (total : Int) (i : Nat) : String :=
  getOutputPath opts.outputPath i total

/-- The source's `part.inlineData && part.inlineData.data` guard:
a part produces a write exactly when its inline data is present and
truthy. -/
def partIsImage (p : Part) : Bool :=
  match p.inline with
  | some d => d ≠ ""
  | none => false

/-- The parts the unit loop iterates over at unit `i`:
`response.candidates[0].content?.parts || []`, empty when the call
fails or returns no candidates. -/
def unitParts (env : Env) (i : Nat) : List Part :=
  match env.remote i with
  | .ok (c :: _) => c.getD []
  | _ => []

/-- The error thrown by unit `i` before any part is processed: content
assembly (`prepareContents`) first, then the remote call. -/
def unitEarlyThrow (env : Env) (opts : GenerateImageOptions) (i : Nat) : Option String :=
  match prepareContents env i opts with
  | .error e => some e
  | .ok _ =>
    match env.remote i with
    | .error e => some e
    | .ok _ => none

def exceptIsOk {ε α : Type} : Except ε α → Bool
  | .ok _ => true
  | .error _ => false

/-- Unit `i` runs cleanly: no early throw, at most one image part in
its response, and — when there is one — the directory creation, the
exclusive write and the metadata read-back at its planned path all
succeed. -/
def CleanUnit (env : Env) (opts : GenerateImageOptions) (total : Int) (i : Nat) : Prop :=
  unitEarlyThrow env opts i = none ∧
  ((unitParts env i).filter partIsImage).length ≤ 1 ∧
  ((unitParts env i).any partIsImage = true →
    env.mkdirRes i (outPathAt opts total i) = .ok () ∧
    env.writeRes i (outPathAt opts total i) = .ok () ∧
    exceptIsOk (env.sharpMeta i (outPathAt opts total i)) = true)

instance (env : Env) (opts : GenerateImageOptions) (total : Int) (i : Nat) :
    Decidable (CleanUnit env opts total i) := by
  unfold CleanUnit
  infer_instance

/-- The `GeneratedImage` entries unit `i` contributes: none when it
throws early or produces no image part, otherwise the single entry at
its planned path with the dimensions reported by the metadata
read-back. -/
def unitYield (env : Env) (opts : GenerateImageOptions) (total : Int) (i : Nat) :
    List GeneratedImage :=
  if (unitEarlyThrow env opts i).isSome then []
  else if (unitParts env i).any partIsImage then
    match env.sharpMeta i (outPathAt opts total i) with
    | .ok meta => [⟨outPathAt opts total i, meta.width.getD 0, meta.height.getD 0⟩]
    | .error _ => []
  else []

/-- The concatenated contributions of units `i, i+1, ..., i+len-1`, in
unit order. -/
def yieldSeg (env : Env) (opts : GenerateImageOptions) (total : Int) :
    Nat → Nat → List GeneratedImage
  | _, 0 => []
  | i, len + 1 => unitYield env opts total i ++ yieldSeg env opts total (i + 1) len

/-! ## Concrete environments used to instantiate the claim theorems -/

/-- A 5-byte PNG-signature buffer used as decoded image data. -/
def pngBytes : List Nat := [0x89, 0x50, 0x4E, 0x47, 0x00]

/-- Batch of 3 against a remote that succeeds at units 0 and 2 with one
inline part each and throws at unit 1. -/
def envW : Env where
  fs0 := []
  imgAccess := fun _ _ => .ok
  imgRead := fun _ _ => .ok pngBytes
  b64decode := fun _ => pngBytes
  remote := fun i =>
    if i = 0 then .ok [some [⟨some "AAA"⟩]]
    else if i = 1 then .error "boom"
    else .ok [some [⟨some "BBB"⟩]]
  mkdirRes := fun _ _ => .ok ()
  writeRes := fun _ _ => .ok ()
  sharpMeta := fun _ _ => .ok ⟨some 32, some 32, some "png"⟩

def optsW : GenerateImageOptions where
  prompt := some "x"
  images := none
  outputPath := "out.png"
  count := some 3
  model := none

/-- A request with neither prompt nor images (content assembly fails at
every unit, in particular unit 0). -/
def optsNoContent : GenerateImageOptions where
  prompt := none
  images := none
  outputPath := "out.png"
  count := some 3
  model := none

/-- Environment whose filesystem already holds the second planned path
`out-2.png`. -/
def envPre : Env :=
  { envW with fs0 := ["out-2.png"] }

/-- Remote producing one candidate whose content carries two inline
image parts at unit 0. -/
def envTwoParts : Env :=
  { envW with remote := fun _ => .ok [some [⟨some "AAA"⟩, ⟨some "BBB"⟩]] }

/-- Environment for the bare-base64 resolution bug: the lenient decoder
yields zero bytes for the failing reference, and every filesystem
oracle is poisoned so that a read would be visible in the result. -/
def envB64 : Env :=
  { envW with
      b64decode := fun _ => []
      imgAccess := fun _ _ => .other "fs touched"
      imgRead := fun _ _ => .error "fs touched" }

/-- Same decoder as `envB64` but answering filesystem probes
positively: resolution of a bare-base64 reference cannot tell the two
apart. -/
def envB64' : Env :=
  { envW with b64decode := fun _ => [] }

/-- Decoder yielding bytes that match no image signature. -/
def envJunk : Env :=
  { envW with
      b64decode := fun _ => [0, 1, 2, 3]
      imgAccess := fun _ _ => .other "fs touched"
      imgRead := fun _ _ => .error "fs touched" }

/-- Validation environment: readable 32x32 PNG of 123 bytes. -/
def venvOk : VEnv where
  vAccess := fun _ => true
  vSharp := fun _ => .ok ⟨some 32, some 32, some "png"⟩
  vStat := fun _ => .ok 123

/-- Validation environment: file absent. -/
def venvMissing : VEnv where
  vAccess := fun _ => false
  vSharp := fun _ => .error "unreachable"
  vStat := fun _ => .error "unreachable"

/-- Validation environment: present but undecodable (e.g. zero-byte
file): the decoder throws. -/
def venvBad : VEnv where
  vAccess := fun _ => true
  vSharp := fun _ => .error "Input buffer contains unsupported image format"
  vStat := fun _ => .ok 0

/-- Validation environment: decodes to a 5x7 image. -/
def venvSmall : VEnv where
  vAccess := fun _ => true
  vSharp := fun _ => .ok ⟨some 5, some 7, some "png"⟩
  vStat := fun _ => .ok 64

/-- Validation environment: the decoder reports a zero width (a decode
with `width < 10`), the shape on which the validation claim and the
code part ways. -/
def venvZeroW : VEnv where
  vAccess := fun _ => true
  vSharp := fun _ => .ok ⟨some 0, some 20, some "png"⟩
  vStat := fun _ => .ok 64

/-- The validation claim's requirement at one path, as stated: a
missing file gives the fixed triple; an existing file that cannot be
decoded gives `exists, not valid` with some error; an existing file
decoded with a dimension below 10 gives `exists, not valid` carrying
the actual dimensions and the too-small error; anything else decoded
gives `valid` with dimensions, format and size. -/
def ValidateClaimAt (env : VEnv) (p : String) : Prop :=
  (env.vAccess p = false →
    validateImage env p = ⟨false, false, none, none, none, some "File does not exist"⟩) ∧
  (∀ m, env.vAccess p = true → env.vSharp p = .error m →
    (validateImage env p).exists_ = true ∧ (validateImage env p).valid = false ∧
      (validateImage env p).error.isSome = true) ∧
  (∀ meta size, env.vAccess p = true → env.vSharp p = .ok meta → env.vStat p = .ok size →
    (meta.width.getD 0 < 10 ∨ meta.height.getD 0 < 10) →
    (validateImage env p).exists_ = true ∧ (validateImage env p).valid = false ∧
      (validateImage env p).dimensions = some (meta.width.getD 0, meta.height.getD 0) ∧
      (validateImage env p).error = some "Image is too small (less than 10x10 pixels)") ∧
  (∀ meta size, env.vAccess p = true → env.vSharp p = .ok meta → env.vStat p = .ok size →
    ¬ (meta.width.getD 0 < 10 ∨ meta.height.getD 0 < 10) →
    validateImage env p =
      ⟨true, true, some (meta.width.getD 0, meta.height.getD 0), meta.format, some size, none⟩)

/-! ## Claim theorems -/

/-- **C5** Path planning determinism: `getOutputPath` is a pure
function of `(basePath, total, index)`; with total 1 it is the base
path itself, otherwise `dir(P)` joined with
`name(P)-{i+1}ext(P)` (1-indexed suffixes); consequently the planner's
path list for a single-image request is exactly `[P]`. -/
theorem getOutputPath_matches_plan_formula :
    (∀ p total i, getOutputPath p i total = plannedPathFormula p total i) ∧
    (∀ p, planPaths p (some 1) = [p] ∧ planPaths p none = [p]) := by
  constructor
  · intro p total i
    rfl
  · intro p
    constructor <;> rfl

/-- **C9** Error classifier specificity order: `handleError` assigns
exactly the code of the first matching pattern of the spec's ordered
chain (API-key, file-collision, quota/limit, permission/access,
not-found, unrecognized-format, invalid-base64, empty-data, generic
write error), and the generic API code when none matches. -/
theorem handleError_follows_classifier_order :
    ∀ msg, errorCodeOf (handleError msg) = firstMatchCode msg classifierChain := by
  intro msg
  simp only [errorCodeOf, handleError, classifierChain, firstMatchCode, apply_ite ErrInfo.code]

/-- **C7** Image Validator contract: `validateImageBuffer` is false on
every buffer shorter than 4 bytes, and on the rest it is true exactly
when the buffer starts with the PNG, JPEG, GIF8 or BMP signature, or
is at least 12 bytes long with RIFF at offset 0 and WEBP at bytes
8-11; only the listed leading bytes are inspected. -/
theorem validateImageBuffer_spec (b : List Nat) :
    validateImageBuffer b = true ↔
      4 ≤ b.length ∧
        (startsWithSig b [0x89, 0x50, 0x4E, 0x47] ∨
         startsWithSig b [0xFF, 0xD8, 0xFF] ∨
         startsWithSig b [0x47, 0x49, 0x46, 0x38] ∨
         (startsWithSig b [0x52, 0x49, 0x46, 0x46] ∧ 12 ≤ b.length ∧
           b.get? 8 = some 0x57 ∧ b.get? 9 = some 0x45 ∧
           b.get? 10 = some 0x42 ∧ b.get? 11 = some 0x50) ∨
         startsWithSig b [0x42, 0x4D]) := by
  match b with
  | [] => simp [validateImageBuffer]
  | [a] => simp [validateImageBuffer]
  | [a, b1] => simp [validateImageBuffer]
  | [a, b1, c] => simp [validateImageBuffer]
  | b0 :: b1 :: b2 :: b3 :: rest =>
    simp only [validateImageBuffer, startsWithSig, List.length_cons, List.take_succ_cons,
      List.take_zero, List.get?_cons_succ, List.get?_cons_zero, Bool.or_eq_true,
      decide_eq_true_eq, List.cons.injEq, and_true, List.length_nil, or_assoc, and_assoc]
    constructor
    · intro h
      exact ⟨by omega, h⟩
    · intro h
      exact h.2

/-! ## Helper lemmas about the batch loop -/

theorem processParts_skip (env : Env) (i : Nat) (out : String) :
    ∀ pre, (∀ q ∈ pre, partIsImage q = false) →
    ∀ rest fs imgs tr, processParts env i out (pre ++ rest) fs imgs tr =
      processParts env i out rest fs imgs tr := by
  intro pre
  induction pre with
  | nil => intro _ rest fs imgs tr; rfl
  | cons q t ih =>
    intro h rest fs imgs tr
    have hq : partIsImage q = false := h q (List.mem_cons_self q t)
    have ht : ∀ r ∈ t, partIsImage r = false := fun r hr => h r (List.mem_cons_of_mem _ hr)
    cases hqi : q.inline with
    | none =>
      simp only [List.cons_append, processParts, hqi]
      exact ih ht rest fs imgs tr
    | some d =>
      have hd : d = "" := by
        unfold partIsImage at hq
        rw [hqi] at hq
        simpa using hq
      subst hd
      simp only [List.cons_append, processParts, hqi, if_pos]
      exact ih ht rest fs imgs tr

theorem processParts_none (env : Env) (i : Nat) (out : String)
    (parts : List Part) (h : ∀ q ∈ parts, partIsImage q = false)
    (fs : List String) (imgs : List GeneratedImage) (tr : List Ev) :
    processParts env i out parts fs imgs tr = .ok fs imgs tr := by
  have h0 := processParts_skip env i out parts h [] fs imgs tr
  rw [List.append_nil] at h0
  exact h0

theorem processParts_hit (env : Env) (i : Nat) (out : String)
    (pre : List Part) (p : Part) (post : List Part) (d : String)
    (fs : List String) (imgs : List GeneratedImage) (tr : List Ev)
    (hpre : ∀ q ∈ pre, partIsImage q = false)
    (hp : p.inline = some d) (hd : d ≠ "")
    (hmk : env.mkdirRes i out = .ok ())
    (hex : fs.contains out = true) :
    processParts env i out (pre ++ p :: post) fs imgs tr = .ret (fileExistsResult out) tr := by
  rw [processParts_skip env i out pre hpre]
  simp only [processParts, hp, if_neg hd, hmk, hex, if_pos]

theorem processParts_one (env : Env) (i : Nat) (out : String)
    (pre : List Part) (p : Part) (post : List Part) (d : String)
    (fs : List String) (imgs : List GeneratedImage) (tr : List Ev) (meta : SharpMeta)
    (hpre : ∀ q ∈ pre, partIsImage q = false)
    (hpost : ∀ q ∈ post, partIsImage q = false)
    (hp : p.inline = some d) (hd : d ≠ "")
    (hmk : env.mkdirRes i out = .ok ())
    (hnex : fs.contains out = false)
    (hwr : env.writeRes i out = .ok ())
    (hsh : env.sharpMeta i out = .ok meta) :
    processParts env i out (pre ++ p :: post) fs imgs tr =
      .ok (out :: fs) (imgs ++ [⟨out, meta.width.getD 0, meta.height.getD 0⟩])
        (tr ++ [Ev.write out]) := by
  rw [processParts_skip env i out pre hpre]
  simp only [processParts, hp, if_neg hd, hmk, hnex, hwr, hsh, Bool.false_eq_true, if_neg]
  exact processParts_none env i out post hpost _ _ _

theorem strData_inj {a b : String} (h : a.data = b.data) : a = b := by
  cases a
  cases b
  cases h
  rfl

theorem strAppend_cancel_left {a x y : String} (h : a ++ x = a ++ y) : x = y := by
  apply strData_inj
  have hd := congrArg String.data h
  rw [String.data_append, String.data_append] at hd
  exact List.append_cancel_left hd

theorem strAppend_cancel_right {x y a : String} (h : x ++ a = y ++ a) : x = y := by
  apply strData_inj
  have hd := congrArg String.data h
  rw [String.data_append, String.data_append] at hd
  exact List.append_cancel_right hd

theorem reprSucc_inj10 :
    ∀ i, i < 10 → ∀ j, j < 10 → Nat.repr (i + 1) = Nat.repr (j + 1) → i = j := by
  decide

/-- Distinct batch units plan distinct output paths (for the counts the
source accepts, whose numeric suffixes stay below 11). -/
theorem getOutputPath_inj (P : String) (total : Int) (ht : total ≠ 1) :
    ∀ i j, i < 10 → j < 10 → getOutputPath P i total = getOutputPath P j total → i = j := by
  intro i j hi hj h
  unfold getOutputPath at h
  rw [if_neg ht, if_neg ht] at h
  have hb : basename P (extname P) ++ "-" ++ Nat.repr (i + 1) ++ extname P =
      basename P (extname P) ++ "-" ++ Nat.repr (j + 1) ++ extname P := by
    unfold pathJoin at h
    by_cases h1 : dirname P = ""
    · rwa [if_pos h1, if_pos h1] at h
    · rw [if_neg h1, if_neg h1] at h
      by_cases h2 : dirname P = "."
      · rwa [if_pos h2, if_pos h2] at h
      · rw [if_neg h2, if_neg h2] at h
        by_cases h3 : dirname P = "/"
        · rw [if_pos h3, if_pos h3] at h
          exact strAppend_cancel_left h
        · rw [if_neg h3, if_neg h3] at h
          exact strAppend_cancel_left h
  exact reprSucc_inj10 i hi j hj (strAppend_cancel_left (strAppend_cancel_right hb))

theorem runUnit_early (env : Env) (opts : GenerateImageOptions) (total : Int) (i : Nat)
    (fs : List String) (imgs : List GeneratedImage) (tr : List Ev) (e : String)
    (h : unitEarlyThrow env opts i = some e) (hi : i ≠ 0) :
    ∃ tr', runUnit env opts total i fs imgs tr = .next fs imgs tr' := by
  unfold unitEarlyThrow at h
  cases hp : prepareContents env i opts with
  | error e' => exact ⟨tr, by simp [runUnit, hp, hi]⟩
  | ok ps =>
    rw [hp] at h
    cases hr : env.remote i with
    | error e' => exact ⟨tr ++ [Ev.call i], by simp [runUnit, hp, hr, hi]⟩
    | ok cands =>
      rw [hr] at h
      cases h

theorem exists_first_image (parts : List Part) (h : parts.any partIsImage = true) :
    ∃ pre p post, parts = pre ++ p :: post ∧ (∀ q ∈ pre, partIsImage q = false) ∧
      partIsImage p = true := by
  induction parts with
  | nil => simp at h
  | cons q t ih =>
    by_cases hq : partIsImage q = true
    · exact ⟨[], q, t, rfl, by simp, hq⟩
    · have hq' : partIsImage q = false := by simpa using hq
      have ht : t.any partIsImage = true := by simpa [List.any_cons, hq'] using h
      obtain ⟨pre, p, post, he, hpre, hp⟩ := ih ht
      refine ⟨q :: pre, p, post, by simp [he], ?_, hp⟩
      intro r hr
      rcases List.mem_cons.mp hr with h1 | h1
      · exact h1 ▸ hq'
      · exact hpre r h1

/-- A clean unit advances the loop: its planned path is written and its
single image entry appended exactly when it has an image part. -/
theorem runUnit_clean (env : Env) (opts : GenerateImageOptions) (total : Int) (i : Nat)
    (fs : List String) (imgs : List GeneratedImage) (tr : List Ev)
    (h : CleanUnit env opts total i)
    (hnex : fs.contains (outPathAt opts total i) = false) :
    ∃ tr', runUnit env opts total i fs imgs tr =
      .next (if (unitParts env i).any partIsImage then outPathAt opts total i :: fs else fs)
        (imgs ++ unitYield env opts total i) tr' := by
  obtain ⟨h1, h2, h3⟩ := h
  cases hp : prepareContents env i opts with
  | error e =>
    unfold unitEarlyThrow at h1
    rw [hp] at h1
    cases h1
  | ok ps =>
    cases hr : env.remote i with
    | error e =>
      unfold unitEarlyThrow at h1
      rw [hp, hr] at h1
      cases h1
    | ok cands =>
      have hney : (unitEarlyThrow env opts i).isSome = false := by rw [h1]; rfl
      cases cands with
      | nil =>
        have hparts0 : unitParts env i = [] := by unfold unitParts; rw [hr]
        refine ⟨tr ++ [Ev.call i], ?_⟩
        simp [runUnit, hp, hr, hparts0, unitYield, h1]
      | cons c cs =>
        have hparts0 : unitParts env i = c.getD [] := by unfold unitParts; rw [hr]
        by_cases hany : (unitParts env i).any partIsImage = true
        · obtain ⟨hmk, hwr, hshOk⟩ := h3 hany
          obtain ⟨meta, hsh⟩ : ∃ m, env.sharpMeta i (outPathAt opts total i) = .ok m := by
            cases hs : env.sharpMeta i (outPathAt opts total i) with
            | ok m => exact ⟨m, rfl⟩
            | error e =>
              unfold exceptIsOk at hshOk
              rw [hs] at hshOk
              cases hshOk
          obtain ⟨pre, p, post, he, hpre, hpim⟩ := exists_first_image _ hany
          obtain ⟨d, hpd, hd⟩ : ∃ d, p.inline = some d ∧ d ≠ "" := by
            unfold partIsImage at hpim
            cases hpi : p.inline with
            | none => rw [hpi] at hpim; cases hpim
            | some d => rw [hpi] at hpim; exact ⟨d, rfl, by simpa using hpim⟩
          have hpost : ∀ r ∈ post, partIsImage r = false := by
            have hf := h2
            rw [he, List.filter_append] at hf
            have hfpre : pre.filter partIsImage = [] :=
              List.filter_eq_nil_iff.mpr (by intro a ha; simp [hpre a ha])
            rw [hfpre, List.filter_cons_of_pos hpim] at hf
            simp only [List.nil_append, List.length_cons] at hf
            have hfp0 : post.filter partIsImage = [] := by
              cases hfp : post.filter partIsImage with
              | nil => rfl
              | cons x xs => rw [hfp] at hf; simp at hf
            intro r hrr
            have := List.filter_eq_nil_iff.mp hfp0 r hrr
            simpa using this
          have hgetd : c.getD [] = pre ++ p :: post := by rw [← hparts0, he]
          have hproc := processParts_one env i (outPathAt opts total i) pre p post d fs imgs
            (tr ++ [Ev.call i]) meta hpre hpost hpd hd hmk hnex hwr hsh
          refine ⟨(tr ++ [Ev.call i]) ++ [Ev.write (outPathAt opts total i)], ?_⟩
          have hyield : unitYield env opts total i =
              [⟨outPathAt opts total i, meta.width.getD 0, meta.height.getD 0⟩] := by
            unfold unitYield
            rw [hney, hsh]
            simp [hany]
          simp only [runUnit, hp, hr, hgetd]
          rw [show getOutputPath opts.outputPath i total = outPathAt opts total i from rfl]
          rw [hproc, hyield, if_pos hany]
        · have hanyf : (unitParts env i).any partIsImage = false := by simpa using hany
          have hall : ∀ r ∈ c.getD [], partIsImage r = false := by
            intro r hrr
            have := List.any_eq_false.mp hanyf r (hparts0 ▸ hrr)
            simpa using this
          have hproc := processParts_none env i (outPathAt opts total i) (c.getD []) hall fs imgs
            (tr ++ [Ev.call i])
          refine ⟨tr ++ [Ev.call i], ?_⟩
          have hyield : unitYield env opts total i = [] := by
            unfold unitYield
            rw [hney, hanyf]
            simp
          simp only [runUnit, hp, hr]
          rw [show getOutputPath opts.outputPath i total = outPathAt opts total i from rfl]
          rw [hproc, hyield, hanyf]
          simp

/-- Loop invariant: from unit `i ≥ 1` on, with a non-empty accumulator
and a filesystem containing only pre-existing files and the planned
paths of earlier units, a batch whose remaining units each either throw
early (swallowed) or run cleanly ends in `success:true` with exactly
the accumulated plus remaining units' entries, in unit order. -/
theorem loopUnits_success (env : Env) (opts : GenerateImageOptions) (total : Int) (n : Nat)
    (hdist : ∀ i j, i < n → j < n → outPathAt opts total i = outPathAt opts total j → i = j)
    (hplan : ∀ i, i < n → env.fs0.contains (outPathAt opts total i) = false)
    (hunits : ∀ i, i < n →
      (1 ≤ i ∧ (unitEarlyThrow env opts i).isSome = true) ∨ CleanUnit env opts total i) :
    ∀ fuel i fs imgs tr, i + fuel = n → 1 ≤ i → imgs ≠ [] →
    (∀ p, fs.contains p = true →
      env.fs0.contains p = true ∨ ∃ j, j < i ∧ p = outPathAt opts total j) →
    (loopUnits env opts total fuel i fs imgs tr).1 =
      { success := true, images := some (imgs ++ yieldSeg env opts total i fuel),
        error := none } := by
  intro fuel
  induction fuel with
  | zero =>
    intro i fs imgs tr hn hi hne hfs
    have hemp : imgs.isEmpty = false := by
      cases imgs with
      | nil => exact absurd rfl hne
      | cons a t => rfl
    simp [loopUnits, hemp, yieldSeg]
  | succ f ih =>
    intro i fs imgs tr hn hi hne hfs
    have hin : i < n := by omega
    rcases hunits i hin with ⟨hi1, hsome⟩ | hclean
    · obtain ⟨e, he⟩ : ∃ e, unitEarlyThrow env opts i = some e := by
        cases hu : unitEarlyThrow env opts i with
        | some e => exact ⟨e, rfl⟩
        | none => rw [hu] at hsome; cases hsome
      obtain ⟨tr', htr⟩ := runUnit_early env opts total i fs imgs tr e he (by omega)
      have hyield0 : unitYield env opts total i = [] := by
        unfold unitYield
        rw [he]
        rfl
      have hrec := ih (i + 1) fs imgs tr' (by omega) (by omega) hne
        (fun p hp => (hfs p hp).imp id (fun hj => by
          obtain ⟨j, hjlt, hpj⟩ := hj
          exact ⟨j, by omega, hpj⟩))
      simp only [loopUnits, htr, hrec, yieldSeg, hyield0, List.nil_append]
    · have hnex : fs.contains (outPathAt opts total i) = false := by
        cases hc : fs.contains (outPathAt opts total i) with
        | false => rfl
        | true =>
          rcases hfs _ hc with h0 | ⟨j, hjlt, hpj⟩
          · rw [hplan i hin] at h0
            cases h0
          · have hij : i = j := hdist i j hin (by omega) hpj
            omega
      obtain ⟨tr', htr⟩ := runUnit_clean env opts total i fs imgs tr hclean hnex
      have hne' : imgs ++ unitYield env opts total i ≠ [] := by
        intro hcon
        exact hne (List.append_eq_nil.mp hcon).1
      have hfs' : ∀ p,
          (if (unitParts env i).any partIsImage then outPathAt opts total i :: fs
            else fs).contains p = true →
          env.fs0.contains p = true ∨ ∃ j, j < i + 1 ∧ p = outPathAt opts total j := by
        intro p hp
        by_cases hany : (unitParts env i).any partIsImage = true
        · rw [if_pos hany] at hp
          have hp2 : p = outPathAt opts total i ∨ fs.contains p = true := by
            simpa [List.contains_cons] using hp
          rcases hp2 with hpe | hold
          · exact Or.inr ⟨i, by omega, hpe⟩
          · exact (hfs p hold).imp id (fun hj => by
              obtain ⟨j, hjlt, hpj⟩ := hj
              exact ⟨j, by omega, hpj⟩)
        · rw [if_neg hany] at hp
          exact (hfs p hp).imp id (fun hj => by
            obtain ⟨j, hjlt, hpj⟩ := hj
            exact ⟨j, by omega, hpj⟩)
      have hrec := ih (i + 1)
        (if (unitParts env i).any partIsImage then outPathAt opts total i :: fs else fs)
        (imgs ++ unitYield env opts total i) tr' (by omega) (by omega) hne' hfs'
      simp only [loopUnits, htr, hrec, yieldSeg, List.append_assoc]

/-- **C1** Partial-batch tolerance: a request with `count = n ≥ 2`
whose planned paths are free, whose unit 0 runs cleanly and produces an
image, and whose remaining units each either throw early (a thrown
remote call or resolution error) or run cleanly, returns
`success:true` carrying exactly the entries of the succeeding units in
unit order (`yieldSeg`: failing units contribute nothing).  The
swallowed failures never surface: `generateImages` is a total function
into results, so no exception escapes. -/
theorem generateImages_partial_batch_tolerance (env : Env) (opts : GenerateImageOptions)
    (n : Nat)
    (hcount : opts.count = some (n : Int)) (h2 : 2 ≤ n) (h10 : n ≤ 10)
    (hplan : ∀ i, i < n → env.fs0.contains (outPathAt opts (n : Int) i) = false)
    (hunits : ∀ i, i < n →
      (1 ≤ i ∧ (unitEarlyThrow env opts i).isSome = true) ∨ CleanUnit env opts (n : Int) i)
    (h0img : (unitParts env 0).any partIsImage = true) :
    (generateImages env opts).1 =
      { success := true, images := some (yieldSeg env opts (n : Int) 0 n),
        error := none } := by
  have hn0 : (n : Int) ≠ 0 := by omega
  have hn1 : (n : Int) ≠ 1 := by omega
  have jtot : jsOrInt opts.count 1 = (n : Int) := by
    rw [hcount]
    simp [jsOrInt, hn0]
  have hlt1 : ¬ ((n : Int) < 1) := by omega
  have hplanEq : planPaths opts.outputPath opts.count =
      (List.range n).map (fun i => outPathAt opts (n : Int) i) := by
    unfold planPaths
    rw [jtot]
    have hb : (if ((n : Int)) < 1 then (1 : Int) else (n : Int)).toNat = n := by
      rw [if_neg hlt1]
      rfl
    have hj2 : jsOrInt (some ((n : Int))) 1 = (n : Int) := by simp [jsOrInt, hn0]
    simp only [hb, hj2]
    rfl
  have hfind : (planPaths opts.outputPath opts.count).find?
      (fun p => env.fs0.contains p) = none := by
    rw [List.find?_eq_none]
    intro p hp
    rw [hplanEq] at hp
    obtain ⟨i, hi, rfl⟩ := List.mem_map.mp hp
    rw [hplan i (List.mem_range.mp hi)]
    simp
  obtain ⟨k, hk⟩ : ∃ k, n = k + 1 := ⟨n - 1, by omega⟩
  have hclean0 : CleanUnit env opts (n : Int) 0 := by
    rcases hunits 0 (by omega) with ⟨h01, _⟩ | hclean0
    · omega
    · exact hclean0
  have hnex0 : env.fs0.contains (outPathAt opts (n : Int) 0) = false := hplan 0 (by omega)
  obtain ⟨tr', htr⟩ := runUnit_clean env opts (n : Int) 0 env.fs0 [] [] hclean0 hnex0
  obtain ⟨meta0, hsh0⟩ : ∃ m, env.sharpMeta 0 (outPathAt opts (n : Int) 0) = .ok m := by
    obtain ⟨-, -, hshOk⟩ := hclean0
    obtain ⟨-, -, hok⟩ := hshOk h0img
    cases hs : env.sharpMeta 0 (outPathAt opts (n : Int) 0) with
    | ok m => exact ⟨m, rfl⟩
    | error e =>
      unfold exceptIsOk at hok
      rw [hs] at hok
      cases hok
  have hyield0 : unitYield env opts (n : Int) 0 =
      [⟨outPathAt opts (n : Int) 0, meta0.width.getD 0, meta0.height.getD 0⟩] := by
    unfold unitYield
    rw [hclean0.1, hsh0]
    simp [h0img]
  have hdist : ∀ i j, i < n → j < n →
      outPathAt opts (n : Int) i = outPathAt opts (n : Int) j → i = j := by
    intro i j hi hj h
    exact getOutputPath_inj opts.outputPath (n : Int) hn1 i j (by omega) (by omega) h
  have hrest := loopUnits_success env opts (n : Int) n hdist hplan hunits k 1
    (if (unitParts env 0).any partIsImage then outPathAt opts (n : Int) 0 :: env.fs0
      else env.fs0)
    ([] ++ unitYield env opts (n : Int) 0) tr' (by omega) (by omega)
    (by rw [hyield0]; simp)
    (by
      intro p hp
      rw [if_pos h0img] at hp
      have hp2 : p = outPathAt opts (n : Int) 0 ∨ env.fs0.contains p = true := by
        simpa [List.contains_cons] using hp
      rcases hp2 with hpe | hold
      · exact Or.inr ⟨0, by omega, hpe⟩
      · exact Or.inl hold)
  have hseg : yieldSeg env opts (n : Int) 0 n =
      unitYield env opts (n : Int) 0 ++ yieldSeg env opts (n : Int) 1 k := by
    rw [hk]
    rfl
  have hcnt2 : ¬ ((n : Int) < 1 ∨ 10 < (n : Int)) := by omega
  have hfuel2 : ((n : Int)).toNat = k + 1 := by omega
  simp only [generateImages, hfind, jtot]
  rw [if_neg hcnt2, hfuel2]
  simp only [loopUnits, htr]
  rw [hrest, hseg]
  simp

/-- **C2** First-unit-fatal: when the planned paths are free, the count
is accepted, and unit 0's content assembly (`prepareContents`) throws,
the whole request returns the error as classified by `handleError`
(`success:false`), the failure propagates immediately, and the trace is
empty — no remote call is made and zero files are written. -/
theorem generateImages_first_unit_fatal (env : Env) (opts : GenerateImageOptions) (e : String)
    (hplan : (planPaths opts.outputPath opts.count).find? (fun q => env.fs0.contains q) = none)
    (hcount : ¬ (jsOrInt opts.count 1 < 1 ∨ 10 < jsOrInt opts.count 1))
    (hprep : prepareContents env 0 opts = .error e) :
    generateImages env opts = (handleError e, []) ∧ (handleError e).success = false := by
  refine ⟨?_, rfl⟩
  simp only [generateImages]
  rw [hplan]
  simp only [if_neg hcount]
  obtain ⟨k, hk⟩ : ∃ k, (jsOrInt opts.count 1).toNat = k + 1 := by
    refine ⟨(jsOrInt opts.count 1).toNat - 1, ?_⟩
    omega
  rw [hk]
  simp [loopUnits, runUnit, hprep]

/-- **C3** Collision fail-fast pre-check: when some planned path
already exists (`find?` returns the first one, in plan order),
`generateImages` returns `success:false` with code `FILE_EXISTS`
naming that path, and the trace is empty — no remote call is made and
zero files are written. -/
theorem generateImages_collision_fail_fast (env : Env) (opts : GenerateImageOptions) (p : String)
    (h : (planPaths opts.outputPath opts.count).find? (fun q => env.fs0.contains q) = some p) :
    generateImages env opts = (fileExistsResult p, []) ∧
      (fileExistsResult p).success = false ∧
      (fileExistsResult p).error =
        some ⟨"FILE_EXISTS", "Output file already exists: " ++ p⟩ := by
  refine ⟨?_, rfl, rfl⟩
  simp only [generateImages]
  rw [h]

/-- **C4** Write-time collision is always fatal to the whole request:
at any batch unit `i` (the unit index is universally quantified; no
special case for `i = 0`), if the unit's planned output path is present
in the filesystem when the pre-write re-check runs for its first image
part, the loop returns immediately with `FILE_EXISTS` for the entire
request — the collision is never downgraded to a swallowed per-unit
failure, and no further file is written (the trace grows only by the
unit's remote-call event). -/
theorem loopUnits_write_collision_fatal (env : Env) (opts : GenerateImageOptions) (total : Int)
    (fuel i : Nat) (fs : List String) (imgs : List GeneratedImage) (tr : List Ev)
    (cparts : List CPart) (c : Option (List Part)) (cs : List (Option (List Part)))
    (pre : List Part) (p : Part) (post : List Part) (d : String)
    (hprep : prepareContents env i opts = .ok cparts)
    (hrem : env.remote i = .ok (c :: cs))
    (hparts : c.getD [] = pre ++ p :: post)
    (hpre : ∀ q ∈ pre, partIsImage q = false)
    (hp : p.inline = some d) (hd : d ≠ "")
    (hmk : env.mkdirRes i (getOutputPath opts.outputPath i total) = .ok ())
    (hex : fs.contains (getOutputPath opts.outputPath i total) = true) :
    loopUnits env opts total (fuel + 1) i fs imgs tr =
      (fileExistsResult (getOutputPath opts.outputPath i total), tr ++ [Ev.call i]) := by
  simp only [loopUnits, runUnit, hprep, hrem, hparts,
    processParts_hit env i (getOutputPath opts.outputPath i total) pre p post d fs imgs
      (tr ++ [Ev.call i]) hpre hp hd hmk hex]

/-- **C10** Multi-part response self-collision: every inline part of
unit `i`'s response is assigned the same planned path
`getOutputPath opts.outputPath i total` (it depends only on the unit
and the count, not on the part).  Hence when a unit's response holds
two image parts, the first is written (its write event is in the
trace, its file on disk), and the second's pre-write re-check finds
the path present, so the loop returns `success:false` / `FILE_EXISTS`
for the entire request — the unit contributes at most the one written
file. -/
theorem loopUnits_multi_part_self_collision (env : Env) (opts : GenerateImageOptions)
    (total : Int) (fuel i : Nat)
    (fs : List String) (imgs : List GeneratedImage) (tr : List Ev)
    (cparts : List CPart) (c : Option (List Part)) (cs : List (Option (List Part)))
    (pre mid post : List Part) (p q : Part) (d d' : String) (meta : SharpMeta)
    (hprep : prepareContents env i opts = .ok cparts)
    (hrem : env.remote i = .ok (c :: cs))
    (hparts : c.getD [] = pre ++ p :: (mid ++ q :: post))
    (hpre : ∀ r ∈ pre, partIsImage r = false)
    (hmid : ∀ r ∈ mid, partIsImage r = false)
    (hp : p.inline = some d) (hd : d ≠ "")
    (hq : q.inline = some d') (hd' : d' ≠ "")
    (hmk : env.mkdirRes i (getOutputPath opts.outputPath i total) = .ok ())
    (hnex : fs.contains (getOutputPath opts.outputPath i total) = false)
    (hwr : env.writeRes i (getOutputPath opts.outputPath i total) = .ok ())
    (hsh : env.sharpMeta i (getOutputPath opts.outputPath i total) = .ok meta) :
    loopUnits env opts total (fuel + 1) i fs imgs tr =
      (fileExistsResult (getOutputPath opts.outputPath i total),
        tr ++ [Ev.call i, Ev.write (getOutputPath opts.outputPath i total)]) := by
  have step1 := processParts_skip env i (getOutputPath opts.outputPath i total) pre hpre
    (p :: (mid ++ q :: post)) fs imgs (tr ++ [Ev.call i])
  have step2 : processParts env i (getOutputPath opts.outputPath i total)
      (p :: (mid ++ q :: post)) fs imgs (tr ++ [Ev.call i]) =
      .ret (fileExistsResult (getOutputPath opts.outputPath i total))
        ((tr ++ [Ev.call i]) ++ [Ev.write (getOutputPath opts.outputPath i total)]) := by
    simp only [processParts, hp, if_neg hd, hmk, hnex, hwr, hsh, Bool.false_eq_true, if_neg]
    exact processParts_hit env i (getOutputPath opts.outputPath i total) mid q post d'
      (getOutputPath opts.outputPath i total :: fs)
      (imgs ++ [⟨getOutputPath opts.outputPath i total, meta.width.getD 0, meta.height.getD 0⟩])
      ((tr ++ [Ev.call i]) ++ [Ev.write (getOutputPath opts.outputPath i total)])
      hmid hq hd' hmk (by simp [List.contains_cons])
  simp only [loopUnits, runUnit, hprep, hrem, hparts, step1, step2, List.append_assoc,
    List.singleton_append]

/-- **C6** Bare base64 resolution: evaluation at a bare base64
reference (`"==base64,"`: not a data URL, carries the inline-base64
marker).  With a lenient decoder yielding zero bytes, the resolver's
deliberate `'Empty base64 image data'` throw is re-wrapped by its own
catch into `'Invalid base64 image data: ...'`, which `handleError`
classifies as `INVALID_BASE64` — not the empty-data code the claim
(and §4.2 of the spec) prescribe, whose `EMPTY_IMAGE_DATA` branch is
thereby unreachable from this path.  The filesystem oracles are
irrelevant (poisoned and benign environments agree), i.e. no
filesystem read is attempted; a decoded buffer failing the magic-byte
check gives the format error, and one passing it resolves
successfully. -/
theorem loadImageData_bare_base64_bug :
    loadImageData envB64 0 ⟨"==base64,", none⟩ =
      .error "Invalid base64 image data: Empty base64 image data" ∧
    loadImageData envB64' 0 ⟨"==base64,", none⟩ =
      .error "Invalid base64 image data: Empty base64 image data" ∧
    errorCodeOf (handleError "Invalid base64 image data: Empty base64 image data") =
      "INVALID_BASE64" ∧
    ("INVALID_BASE64" = "EMPTY_IMAGE_DATA" → False) ∧
    loadImageData envJunk 0 ⟨"==base64,", none⟩ =
      .error "Base64 data is not a valid image format" ∧
    loadImageData envW 0 ⟨"==base64,", none⟩ = .ok ("==base64,", "image/png") := by
  refine ⟨by decide, by decide, by decide, by decide, by decide, by decide⟩

/-- **C8 (amended)** Validation Tool contract, matching the code: a
missing file reports the fixed triple; a decode or stat throw reports
`exists, not valid` with the wrapped decode error; a decode whose
width or height is absent *or zero* reports the
`'Image has invalid dimensions'` error without dimensions; a decode
with both dimensions positive and either below 10 reports the actual
dimensions with the too-small error; otherwise the report is valid
with dimensions, format and file size. -/
theorem validateImage_amended (env : VEnv) (p : String) :
    (env.vAccess p = false →
      validateImage env p = ⟨false, false, none, none, none, some "File does not exist"⟩) ∧
    (∀ m, env.vAccess p = true → env.vSharp p = .error m →
      validateImage env p =
        ⟨true, false, none, none, none, some ("Invalid image file: " ++ m)⟩) ∧
    (∀ meta m, env.vAccess p = true → env.vSharp p = .ok meta → env.vStat p = .error m →
      validateImage env p =
        ⟨true, false, none, none, none, some ("Invalid image file: " ++ m)⟩) ∧
    (∀ meta size, env.vAccess p = true → env.vSharp p = .ok meta → env.vStat p = .ok size →
      (meta.width.getD 0 = 0 ∨ meta.height.getD 0 = 0) →
      validateImage env p =
        ⟨true, false, none, none, none, some "Image has invalid dimensions"⟩) ∧
    (∀ meta size, env.vAccess p = true → env.vSharp p = .ok meta → env.vStat p = .ok size →
      meta.width.getD 0 ≠ 0 → meta.height.getD 0 ≠ 0 →
      (meta.width.getD 0 < 10 ∨ meta.height.getD 0 < 10) →
      validateImage env p = ⟨true, false, some (meta.width.getD 0, meta.height.getD 0),
        none, none, some "Image is too small (less than 10x10 pixels)"⟩) ∧
    (∀ meta size, env.vAccess p = true → env.vSharp p = .ok meta → env.vStat p = .ok size →
      10 ≤ meta.width.getD 0 → 10 ≤ meta.height.getD 0 →
      validateImage env p = ⟨true, true, some (meta.width.getD 0, meta.height.getD 0),
        meta.format, some size, none⟩) := by
  refine ⟨?_, ?_, ?_, ?_, ?_, ?_⟩
  · intro ha
    simp [validateImage, ha]
  · intro m ha hs
    simp [validateImage, ha, hs]
  · intro meta m ha hs hst
    simp [validateImage, ha, hs, hst]
  · intro meta size ha hs hst hz
    simp [validateImage, ha, hs, hst]
    intro hw hh
    rcases hz with h0 | h0
    · exact absurd h0 hw
    · exact absurd h0 hh
  · intro meta size ha hs hst hw hh hlt
    simp [validateImage, ha, hs, hst]
    rw [if_neg (show ¬ (meta.width.getD 0 = 0 ∨ meta.height.getD 0 = 0) by omega),
      if_pos hlt]
  · intro meta size ha hs hst hw hh
    simp [validateImage, ha, hs, hst]
    rw [if_neg (show ¬ (meta.width.getD 0 = 0 ∨ meta.height.getD 0 = 0) by omega),
      if_neg (show ¬ (meta.width.getD 0 < 10 ∨ meta.height.getD 0 < 10) by omega)]

/-- **C8 (counterexample)** The Validation Tool claim as stated fails
on the code: at a path whose decode reports `width = 0` (a decode with
`width < 10`), the claim requires the report to carry the actual
dimensions and the too-small error, but `validateImage` reports
`'Image has invalid dimensions'` with no dimensions. -/
theorem validateImage_claim_counterexample : ¬ ValidateClaimAt venvZeroW "img.png" := by
  intro h
  obtain ⟨-, -, htoo, -⟩ := h
  have h2 := htoo ⟨some 0, some 20, some "png"⟩ 64 rfl rfl rfl (Or.inl (by decide))
  have h3 : (validateImage venvZeroW "img.png").dimensions = none := by decide
  rw [h2.2.2.1] at h3
  cases h3

/-! ## Witnesses: the claim theorems applied at concrete inputs -/

/-- C1's hypotheses hold at `envW`/`optsW` (count 3, unit 1's remote
call throws): the result is `success:true` with exactly the two
entries of units 0 and 2, in unit order. -/
theorem generateImages_partial_batch_tolerance_witness :
    (generateImages envW optsW).1 =
      { success := true,
        images := some [⟨"out-1.png", 32, 32⟩, ⟨"out-3.png", 32, 32⟩],
        error := none } := by
  have h := generateImages_partial_batch_tolerance envW optsW 3 rfl (by decide) (by decide)
    (by decide) (by decide) (by decide)
  exact h.trans (by decide)

/-- C2's hypotheses hold for the no-prompt no-images request: the
result is the classified `API_ERROR` and the trace is empty. -/
theorem generateImages_first_unit_fatal_witness :
    generateImages envW optsNoContent =
      ({ success := false, images := none,
         error := some ⟨"API_ERROR", "Either prompt or images must be provided"⟩ }, []) := by
  have h := generateImages_first_unit_fatal envW optsNoContent
    "Either prompt or images must be provided" (by decide) (by decide) (by decide)
  exact h.1.trans (by decide)

/-- C3's hypothesis holds when `out-2.png` pre-exists: the whole
request fails with `FILE_EXISTS` and an empty trace. -/
theorem generateImages_collision_fail_fast_witness :
    generateImages envPre optsW = (fileExistsResult "out-2.png", []) :=
  (generateImages_collision_fail_fast envPre optsW "out-2.png" (by decide)).1

/-- C4's hypotheses hold at unit 2 (`i > 0`) when `out-3.png` is
already on disk at re-check time: the whole request returns
`FILE_EXISTS` instead of swallowing the collision. -/
theorem loopUnits_write_collision_fatal_witness :
    loopUnits envW optsW 3 1 2 ["out-3.png"] [] [] =
      (fileExistsResult "out-3.png", [Ev.call 2]) := by
  have h := loopUnits_write_collision_fatal envW optsW 3 0 2 ["out-3.png"] [] []
    [CPart.text "x"] (some [⟨some "BBB"⟩]) [] [] ⟨some "BBB"⟩ [] "BBB"
    (by decide) (by decide) (by decide) (by decide) (by decide) (by decide) (by decide)
    (by decide)
  exact h.trans (by decide)

/-- C10's hypotheses hold at unit 0 of a two-part response: the first
part's file is written (its event is in the trace) and the request
fails with `FILE_EXISTS` at the shared planned path. -/
theorem loopUnits_multi_part_self_collision_witness :
    loopUnits envTwoParts optsW 3 3 0 [] [] [] =
      (fileExistsResult "out-1.png", [Ev.call 0, Ev.write "out-1.png"]) := by
  have h := loopUnits_multi_part_self_collision envTwoParts optsW 3 2 0 [] [] []
    [CPart.text "x"] (some [⟨some "AAA"⟩, ⟨some "BBB"⟩]) [] [] [] []
    ⟨some "AAA"⟩ ⟨some "BBB"⟩ "AAA" "BBB" ⟨some 32, some 32, some "png"⟩
    (by decide) (by decide) (by decide) (by decide) (by decide) (by decide) (by decide)
    (by decide) (by decide) (by decide) (by decide) (by decide) (by decide)
  exact h.trans (by decide)

/-- C8's amended characterization applied to four concrete
environments: missing file, undecodable file, 5x7 image, 32x32 image. -/
theorem validateImage_amended_witness :
    validateImage venvMissing "a.png" =
      ⟨false, false, none, none, none, some "File does not exist"⟩ ∧
    validateImage venvBad "b.png" =
      ⟨true, false, none, none, none,
        some "Invalid image file: Input buffer contains unsupported image format"⟩ ∧
    validateImage venvSmall "c.png" =
      ⟨true, false, some (5, 7), none, none,
        some "Image is too small (less than 10x10 pixels)"⟩ ∧
    validateImage venvOk "d.png" =
      ⟨true, true, some (32, 32), some "png", some 123, none⟩ := by
  refine ⟨(validateImage_amended venvMissing "a.png").1 rfl,
    (validateImage_amended venvBad "b.png").2.1
      "Input buffer contains unsupported image format" rfl rfl, ?_, ?_⟩
  · have h := (validateImage_amended venvSmall "c.png").2.2.2.2.1
      ⟨some 5, some 7, some "png"⟩ 64 rfl rfl rfl (by decide) (by decide) (by decide)
    exact h.trans (by decide)
  · have h := (validateImage_amended venvOk "d.png").2.2.2.2.2
      ⟨some 32, some 32, some "png"⟩ 123 rfl rfl rfl (by decide) (by decide)
    exact h.trans (by decide)

end NanoBanana
